import Mathlib

/-!
Verification of the authorization and sequential-retrieval subsystem of the
image-to-dirty-poem backend.

The embedding below is a shallow model of the JavaScript source:

* `src/middleware/auth.js` — the allowlist cache subscription and the
  `authenticate` middleware.
* `src/controllers/adminController.js` — `getSettings`, `getPoem`,
  `getPublicPoem`, `toggleFavorite`, `deletePoem`, and the dual-auth phase of
  `generatePoem`.

External collaborators are modelled at their interface boundary:

* The identity provider (`getAuth().verifyIdToken`) is an abstract function
  `String → VerifyResult`.
* A Firestore range query (where/orderBy/offset/limit) is modelled by the
  ordered result sequence it ranges over: the handler receives the
  owner-filtered, optionally favorite-filtered, ordered list of documents and
  applies `drop`/`take` for offset/limit, with `snapshot.empty` corresponding
  to the empty row list.
* A Firestore document lookup by id (`collection.doc(id).get()`) is modelled
  by `List.find?` on a document list (document ids are unique in the store).
* JavaScript falsiness of an optional string field (absent, or present and
  empty) is modelled on `Option String` as `none` or `some ""`.
-/

/-- Result of `getAuth().verifyIdToken`: success carries the decoded uid and
email; failure is either the distinct expired error or any other failure. -/
inductive VerifyResult where
  | ok (uid : String) (email : Option String)
  | expired
  | invalid
deriving DecidableEq

/-- `s.startsWith t` on the underlying character lists. -/
def startsWithL : List Char → List Char → Bool
  | [], _ => true
  | _ :: _, [] => false
  | p :: ps, c :: cs => p = c && startsWithL ps cs

/-- Models the JavaScript `s.startsWith(t)`. -/
def strStartsWith (s t : String) : Bool := startsWithL t.toList s.toList

/-- Models `authHeader.split("Bearer ")[1]` for a header that starts with
`"Bearer "`: the characters after the 7-character scheme marker, which is the
string handed to the verifier. -/
def bearerToken (h : String) : String := ⟨h.toList.drop 7⟩

/-- One document of the `allowlist` collection, as read by the cache
subscription and by `getSettings`. Optional string fields are `none` when the
field is absent. -/
structure AllowDoc where
  uid : Option String
  geminiApiKey : Option String
  timezone : Option String
  themeMode : Option String
  penName : Option String
  webDisplayPoem : Option String
  addedBy : Option String
deriving DecidableEq

/-- Builds the fresh allowlist set from a delivered snapshot
(`auth.js` lines 10–16): for each document, `if (data.uid)` adds the uid,
so a uid contributes exactly when it is present and non-empty (truthy). The
cache is a set; we model it by the insertion-order list of added uids, whose
membership is the set membership. -/
def buildAllowlist (snapshot : List AllowDoc) : List String :=
  snapshot.foldl (fun acc doc =>
    match doc.uid with
    | some u => if u ≠ "" then acc ++ [u] else acc
    | none => acc) []

/-- `allowedUserIds = newAllowlist` (`auth.js` line 17): the delivered
snapshot replaces the previous cache wholesale. -/
def updateCache (_old : List String) (snapshot : List AllowDoc) : List String :=
  buildAllowlist snapshot

/-- The verified auth context attached as `req.user`. -/
structure AuthUser where
  uid : String
  email : Option String
deriving DecidableEq

/-- Outcome of the `authenticate` middleware: either the request proceeds to
the route handler (`next()`), carrying the attached auth context when one was
resolved, or a JSON error response with the given status is sent. -/
inductive AuthResult where
  | next (user : Option AuthUser)
  | reject (status : Nat) (error : String)
deriving DecidableEq

/-- The request surface `authenticate` inspects. -/
structure Request where
  path : String
  authorization : Option String
deriving DecidableEq

/-- The fixed public-path bypass list (`auth.js` line 28). -/
def publicPaths : List String :=
  ["/", "/favicon.ico", "/generate-poem", "/public/getPoem", "/public/getWebDisplayPoem"]

/-- The `authenticate` middleware (`auth.js` lines 24–68). `verify` is the
identity provider call, `allowed` the current allowlist cache. The expired
branch also carries the machine-readable code `TOKEN_EXPIRED` in the source;
its distinct error text identifies it here. -/
def authenticate (verify : String → VerifyResult) (allowed : List String)
    (req : Request) : AuthResult :=
  if req.path ∈ publicPaths then .next none
  else
    match req.authorization with
    | none => .reject 401 "Authentication required: Missing or invalid token"
    | some h =>
      if !strStartsWith h "Bearer " then
        .reject 401 "Authentication required: Missing or invalid token"
      else
        match verify (bearerToken h) with
        | .ok uid email =>
          if allowed.length > 0 && !(allowed.contains uid) then
            .reject 403 "Access denied: User not on allowlist"
          else
            .next (some ⟨uid, email⟩)
        | .expired => .reject 401 "Token expired"
        | .invalid => .reject 401 "Invalid authentication token"

/-- The request surface the dual-auth phase of `generatePoem` inspects.
`hasImage` records whether the multipart/raw body produced an image buffer;
`useridParam` is `req.query.userid`. -/
structure GenRequest where
  hasImage : Bool
  authorization : Option String
  useridParam : Option String
deriving DecidableEq

/-- Outcome of the auth phase of `generatePoem`: `proceed uid viaToken`
means the request reaches the handler logic (settings lookup, generation,
persistence) with the resolved subject, `viaToken` recording whether the
token path or the userid-parameter path resolved it. -/
inductive GenAuthResult where
  | reject (status : Nat) (error : String)
  | proceed (userId : String) (viaToken : Bool)
deriving DecidableEq

/-- The token path of `generatePoem` (`adminController.js` lines 468–480):
when a well-formed bearer header is present and verifies, its uid; on a
missing or malformed header, or any verification failure, `none` — the
failure is logged and the flow falls through. -/
def tokenUid (verify : String → VerifyResult) (authorization : Option String) :
    Option String :=
  match authorization with
  | some h =>
    if strStartsWith h "Bearer " then
      match verify (bearerToken h) with
      | .ok uid _ => some uid
      | .expired => none
      | .invalid => none
    else none
  | none => none

/-- The image check and dual-auth phase of `generatePoem`
(`adminController.js` lines 419–494): image required (400); then the token
path, then the userid-parameter fallback, which alone is gated by the
allowlist cache; neither path resolving a subject gives 401. -/
def generatePoemAuth (verify : String → VerifyResult) (allowed : List String)
    (req : GenRequest) : GenAuthResult :=
  if !req.hasImage then .reject 400 "No image file provided"
  else
    match tokenUid verify req.authorization with
    | some uid => .proceed uid true
    | none =>
      match req.useridParam with
      | some u =>
        if u ≠ "" then
          if allowed.length > 0 && !(allowed.contains u) then
            .reject 403 "Access denied: User not on allowlist"
          else .proceed u false
        else .reject 401 "Authentication required: Missing token or userid"
      | none => .reject 401 "Authentication required: Missing token or userid"

/-- One document of the `poems` collection. -/
structure Poem where
  id : String
  userId : String
  isFavorite : Bool
  timestamp : Int
deriving DecidableEq

/-- A poem as returned by the navigator, annotated with its resolved logical
position (`{ ...doc, index }`). -/
structure AnnotPoem where
  poem : Poem
  index : Int
deriving DecidableEq

/-- The navigator response shape. -/
structure NavResponse where
  currentPoem : Option AnnotPoem
  nextPoem : Option AnnotPoem
  previousPoem : Option AnnotPoem
deriving DecidableEq

/-- `parseInt(req.query.index)` followed by the normalization
`if (isNaN(index) || index < 0) index = 0`. `none` models a missing or
non-numeric parameter (NaN). -/
def normalizeIndex : Option Int → Int
  | none => 0
  | some i => if i < 0 then 0 else i

/-- The windowed navigator `getPoem` (`adminController.js` lines 233–289).
`ordered` is the result sequence of the Firestore base query: the documents
whose `userId` is the verified uid, restricted to favorites when
`favoritesOnly` is set, under the active ordering (`isFavorite` desc then
`timestamp` desc, or `timestamp` desc alone). The handler applies
`offset`/`limit` to that sequence and maps the returned rows positionally. -/
def getPoem (ordered : List Poem) (rawIndex : Option Int) : NavResponse :=
  let index := normalizeIndex rawIndex
  let offset := (max 0 (index - 1)).toNat
  let limitVal : Nat := if index = 0 then 2 else 3
  let docs := (ordered.drop offset).take limitVal
  if docs.isEmpty then
    ⟨none, none, none⟩
  else if index = 0 then
    { currentPoem := (docs.get? 0).map (fun p => ⟨p, 0⟩)
      nextPoem := none
      previousPoem := (docs.get? 1).map (fun p => ⟨p, 1⟩) }
  else
    { nextPoem := (docs.get? 0).map (fun p => ⟨p, index - 1⟩)
      currentPoem := (docs.get? 1).map (fun p => ⟨p, index⟩)
      previousPoem := (docs.get? 2).map (fun p => ⟨p, index + 1⟩) }

/-- Outcome of the public navigator: a 400 validation error or a navigator
response. -/
inductive PublicPoemResult where
  | badRequest (error : String)
  | ok (r : NavResponse)
deriving DecidableEq

/-- The public navigator `getPublicPoem` (`adminController.js` lines
291–350): the owner is the caller-supplied `userid` query parameter, rejected
with 400 when absent or empty (falsy); the windowed navigation itself is the
identical inlined algorithm, here shared with `getPoem`. `orderedOf u` is the
base-query result sequence for owner `u`. -/
def getPublicPoem (useridParam : Option String) (orderedOf : String → List Poem)
    (rawIndex : Option Int) : PublicPoemResult :=
  match useridParam with
  | none => .badRequest "Missing userid parameter"
  | some u =>
    if u = "" then .badRequest "Missing userid parameter"
    else .ok (getPoem (orderedOf u) rawIndex)

/-- Status part of the `deletePoem` outcome. -/
inductive DeleteResult where
  | badRequest (error : String)
  | notFound (error : String)
  | forbidden (error : String)
  | success
deriving DecidableEq

/-- `deletePoem` (`adminController.js` lines 390–415): missing id is 400;
absent document 404; a document whose `userId` differs from the verified
caller uid 403 with no deletion; otherwise the document is deleted. Returns
the response and the poems collection after the request. -/
def deletePoem (db : List Poem) (uid : String) (idParam : Option String) :
    DeleteResult × List Poem :=
  match idParam with
  | none => (.badRequest "Missing id", db)
  | some id =>
    if id = "" then (.badRequest "Missing id", db)
    else
      match db.find? (fun p => p.id == id) with
      | none => (.notFound "Poem not found", db)
      | some doc =>
        if doc.userId ≠ uid then (.forbidden "Unauthorized to delete this poem", db)
        else (.success, db.filter (fun p => p.id ≠ id))

/-- A JSON value as it can appear in the request body field `status`;
`toggleFavorite` compares it against `true` and the string `"true"`. -/
inductive JVal where
  | jbool (b : Bool)
  | jstr (s : String)
  | jnum (n : Int)
  | jnull
deriving DecidableEq

/-- Status part of the `toggleFavorite` outcome; `success` reports the
`isFavorite` value written. -/
inductive ToggleResult where
  | badRequest (error : String)
  | notFound (error : String)
  | forbidden (error : String)
  | success (isFavorite : Bool)
deriving DecidableEq

/-- `toggleFavorite` (`adminController.js` lines 352–388): after the same
missing-id / not-found / ownership checks as `deletePoem`, the new status is
the supplied `status` coerced by `status === true || status === "true"` when
the field is present (`!== undefined`), else the negation of the stored flag;
the document is updated and the written value reported. -/
def toggleFavorite (db : List Poem) (uid : String) (idParam : Option String)
    (status : Option JVal) : ToggleResult × List Poem :=
  match idParam with
  | none => (.badRequest "Missing id", db)
  | some id =>
    if id = "" then (.badRequest "Missing id", db)
    else
      match db.find? (fun p => p.id == id) with
      | none => (.notFound "Poem not found", db)
      | some doc =>
        if doc.userId ≠ uid then (.forbidden "Unauthorized to modify this poem", db)
        else
          let newStatus : Bool :=
            match status with
            | some v => v == .jbool true || v == .jstr "true"
            | none => !doc.isFavorite
          (.success newStatus,
           db.map (fun p => if p.id == id then { p with isFavorite := newStatus } else p))

/-- The fields of an allowlist document other than `geminiApiKey`, i.e. the
`...safeSettings` rest spread of `getSettings`. -/
structure SafeSettings where
  uid : Option String
  timezone : Option String
  themeMode : Option String
  penName : Option String
  webDisplayPoem : Option String
  addedBy : Option String
deriving DecidableEq

/-- The `getSettings` response body for a caller present in the allowlist:
every stored field except `geminiApiKey`, plus the `hasGeminiApiKey` flag. -/
structure SettingsResponse where
  settings : SafeSettings
  hasGeminiApiKey : Bool
deriving DecidableEq

/-- Outcome of `getSettings`: the empty object when the caller has no
allowlist document, else the settings response. -/
inductive GetSettingsResult where
  | empty
  | ok (r : SettingsResponse)
deriving DecidableEq

/-- The rest spread `const { geminiApiKey, ...safeSettings } = data`. -/
def safeOf (d : AllowDoc) : SafeSettings :=
  ⟨d.uid, d.timezone, d.themeMode, d.penName, d.webDisplayPoem, d.addedBy⟩

/-- `getSettings` (`adminController.js` lines 104–135). `queryResult` is the
result of the limit-1 allowlist query for the verified caller uid: `none`
when the snapshot is empty. `!!geminiApiKey && geminiApiKey.length > 0` on a
stored string key is: present and non-empty. -/
def getSettings (queryResult : Option AllowDoc) : GetSettingsResult :=
  match queryResult with
  | none => .empty
  | some d =>
    .ok ⟨safeOf d,
         match d.geminiApiKey with
         | some k => k ≠ ""
         | none => false⟩



/-! ### Helper lemmas -/

/-- `List.contains` on strings is list membership. -/
theorem contains_eq_mem_strings (l : List String) (a : String) :
    l.contains a = true ↔ a ∈ l := by
  simp [List.contains_iff_exists_mem_beq]

/-- The normalized navigation index is non-negative. -/
theorem normalizeIndex_nonneg (o : Option Int) : 0 ≤ normalizeIndex o := by
  cases o with
  | none => simp [normalizeIndex]
  | some i =>
    simp only [normalizeIndex]
    split <;> omega

/-- An element of an offset/limit window at an in-window position is the
element of the underlying sequence at the absolute position. -/
theorem window_getElem? (l : List Poem) (off lim k : Nat) (hk : k < lim) :
    ((l.drop off).take lim)[k]? = l[off + k]? := by
  rw [List.getElem?_take_of_lt hk, List.getElem?_drop]

/-! ### Claims -/

/-- C1: for a request outside the public-path list whose bearer token
verifies to subject `uid`, `authenticate` responds 403 "Access denied" iff
the allowlist cache is non-empty and `uid` is not a member; with an empty
cache or a member subject, the request proceeds with `{uid, email}` attached
as the auth context. -/
theorem authenticate_allowlist_gate (verify : String → VerifyResult)
    (allowed : List String) (req : Request) (uid : String)
    (email : Option String) (h : String)
    (hpub : req.path ∉ publicPaths)
    (hauth : req.authorization = some h)
    (hb : strStartsWith h "Bearer " = true)
    (hv : verify (bearerToken h) = .ok uid email) :
    (authenticate verify allowed req =
        .reject 403 "Access denied: User not on allowlist" ↔
      allowed ≠ [] ∧ uid ∉ allowed) ∧
    ((allowed = [] ∨ uid ∈ allowed) →
      authenticate verify allowed req = .next (some ⟨uid, email⟩)) := by
  have hgate : authenticate verify allowed req =
      (if allowed.length > 0 && !(allowed.contains uid) then
        .reject 403 "Access denied: User not on allowlist"
      else .next (some ⟨uid, email⟩)) := by
    unfold authenticate
    rw [if_neg hpub, hauth]
    simp only [hb, Bool.not_true, Bool.false_eq_true, if_false, hv]
  rw [hgate]
  by_cases hmem : uid ∈ allowed
  · have : allowed.contains uid = true := (contains_eq_mem_strings _ _).mpr hmem
    simp [this, hmem]
  · have hcon : allowed.contains uid = false := by
      rcases Bool.eq_false_or_eq_true (allowed.contains uid) with h' | h'
      · exact absurd ((contains_eq_mem_strings _ _).mp h') hmem
      · exact h'
    by_cases hnil : allowed = []
    · subst hnil
      simp
    · have hlen : allowed.length > 0 := List.length_pos.mpr hnil
      simp [hcon, hlen, hmem, hnil]

/-- C1 witness: a concrete allowlisted verified subject proceeds with the
auth context attached. -/
theorem authenticate_allowlist_gate_witness :
    authenticate (fun t => if t == "good" then .ok "alice" (some "a@x") else .invalid)
      ["alice"] ⟨"/poemList", some "Bearer good"⟩ =
      .next (some ⟨"alice", some "a@x"⟩) :=
  (authenticate_allowlist_gate
    (fun t => if t == "good" then .ok "alice" (some "a@x") else .invalid)
    ["alice"] ⟨"/poemList", some "Bearer good"⟩ "alice" (some "a@x")
    "Bearer good" (by decide) rfl (by decide) (by decide)).2
    (Or.inr (by decide))

/-- C7: for a request outside the public-path list whose Authorization header
is absent or does not begin with "Bearer ", `authenticate` responds 401
"missing or invalid token"; the outcome is the same for every verifier and
every allowlist cache, i.e. neither is consulted. -/
theorem authenticate_missing_or_malformed_header
    (verify verify2 : String → VerifyResult)
    (allowed allowed2 : List String) (req : Request)
    (hpub : req.path ∉ publicPaths)
    (hbad : ∀ h, req.authorization = some h → strStartsWith h "Bearer " = false) :
    authenticate verify allowed req =
      .reject 401 "Authentication required: Missing or invalid token" ∧
    authenticate verify allowed req = authenticate verify2 allowed2 req := by
  have key : ∀ (v : String → VerifyResult) (a : List String),
      authenticate v a req =
        .reject 401 "Authentication required: Missing or invalid token" := by
    intro v a
    unfold authenticate
    rw [if_neg hpub]
    cases hA : req.authorization with
    | none => rfl
    | some h => simp [hbad h hA]
  exact ⟨key verify allowed, (key verify allowed).trans (key verify2 allowed2).symm⟩

/-- C7 witness: a concrete malformed Authorization header is rejected with
401 on a protected path. -/
theorem authenticate_missing_or_malformed_header_witness :
    authenticate (fun _ => .ok "alice" none) ["alice"]
      ⟨"/poemList", some "InvalidFormat token"⟩ =
      .reject 401 "Authentication required: Missing or invalid token" :=
  (authenticate_missing_or_malformed_header (fun _ => .ok "alice" none)
    (fun _ => .invalid) ["alice"] [] ⟨"/poemList", some "InvalidFormat token"⟩
    (by decide) (fun h hh => by
      cases hh
      decide)).1

/-- A concrete verifier accepting exactly the token "good" as subject
"alice"; used by the concrete scenarios below. -/
def vOK : String → VerifyResult :=
  fun t => if t == "good" then .ok "alice" (some "a@x") else .invalid

/-- C2 counterexample: on `/generate-poem`, a request whose bearer token
verifies to "alice" while the non-empty allowlist cache is `["bob"]` reaches
the handler logic via the token path — the token path performs no allowlist
check, contradicting the claim that a subject absent from a non-empty cache
never reaches the handler. -/
theorem generatePoem_token_path_bypasses_allowlist :
    generatePoemAuth vOK ["bob"] ⟨true, some "Bearer good", none⟩ =
      .proceed "alice" true ∧
    "alice" ∉ (["bob"] : List String) ∧ (["bob"] : List String) ≠ [] := by
  decide

/-- C2 (amended): every route gated by the `authenticate` middleware, and the
userid-parameter path of `/generate-poem`, require the subject to be a member
of a non-empty allowlist cache — a subject absent from a non-empty cache is
rejected with 403 before any handler logic; the verified-token path of
`/generate-poem` performs no allowlist check. -/
theorem allowlist_gate_on_middleware_and_param_path :
    (∀ (verify : String → VerifyResult) (allowed : List String) (req : Request)
      (s : String) (email : Option String) (h : String),
      req.path ∉ publicPaths → req.authorization = some h →
      strStartsWith h "Bearer " = true → verify (bearerToken h) = .ok s email →
      allowed ≠ [] → s ∉ allowed →
      authenticate verify allowed req =
        .reject 403 "Access denied: User not on allowlist") ∧
    (∀ (verify : String → VerifyResult) (allowed : List String)
      (req : GenRequest) (u : String),
      req.hasImage = true → tokenUid verify req.authorization = none →
      req.useridParam = some u → u ≠ "" → allowed ≠ [] → u ∉ allowed →
      generatePoemAuth verify allowed req =
        .reject 403 "Access denied: User not on allowlist") := by
  constructor
  · intro verify allowed req s email h hpub hauth hb hv hne hnm
    exact (authenticate_allowlist_gate verify allowed req s email h
      hpub hauth hb hv).1.mpr ⟨hne, hnm⟩
  · intro verify allowed req u himg htok hparam hne hnil hnm
    have hcon : allowed.contains u = false := by
      rcases Bool.eq_false_or_eq_true (allowed.contains u) with h' | h'
      · exact absurd ((contains_eq_mem_strings _ _).mp h') hnm
      · exact h'
    have hlen : allowed.length > 0 := List.length_pos.mpr hnil
    unfold generatePoemAuth
    rw [himg, htok, hparam]
    simp [hne, hcon, hlen, hnm]

/-- C2 amended witness: concrete rejections on the middleware path and on the
userid-parameter path of `/generate-poem` for subjects absent from a
non-empty cache. -/
theorem allowlist_gate_on_middleware_and_param_path_witness :
    authenticate vOK ["bob"] ⟨"/poemList", some "Bearer good"⟩ =
      .reject 403 "Access denied: User not on allowlist" ∧
    generatePoemAuth (fun _ => .invalid) ["bob"]
      ⟨true, some "Bearer x", some "eve"⟩ =
      .reject 403 "Access denied: User not on allowlist" :=
  ⟨allowlist_gate_on_middleware_and_param_path.1 vOK ["bob"]
      ⟨"/poemList", some "Bearer good"⟩ "alice" (some "a@x") "Bearer good"
      (by decide) rfl (by decide) (by decide) (by decide) (by decide),
   allowlist_gate_on_middleware_and_param_path.2 (fun _ => .invalid) ["bob"]
      ⟨true, some "Bearer x", some "eve"⟩ "eve"
      rfl (by decide) rfl (by decide) (by decide) (by decide)⟩

/-- C3: on `/generate-poem` with an image, subject resolution order: a
verifying bearer token yields its uid and proceeds (no allowlist check on
this path); any verification failure on a well-formed header leaves the token
path unresolved instead of rejecting; the userid query parameter is then
accepted unless the cache is non-empty and lacks it (403); with neither a
token-resolved nor parameter subject, 401 "Authentication required". -/
theorem generatePoem_dual_auth_order (verify : String → VerifyResult)
    (allowed : List String) (req : GenRequest)
    (himg : req.hasImage = true) :
    (∀ uid, tokenUid verify req.authorization = some uid →
      generatePoemAuth verify allowed req = .proceed uid true) ∧
    (∀ h, req.authorization = some h → strStartsWith h "Bearer " = true →
      (∀ uid email, verify (bearerToken h) ≠ .ok uid email) →
      tokenUid verify req.authorization = none) ∧
    (∀ u, tokenUid verify req.authorization = none → req.useridParam = some u →
      u ≠ "" →
      ((generatePoemAuth verify allowed req =
          .reject 403 "Access denied: User not on allowlist" ↔
        allowed ≠ [] ∧ u ∉ allowed) ∧
       ((allowed = [] ∨ u ∈ allowed) →
        generatePoemAuth verify allowed req = .proceed u false))) ∧
    (tokenUid verify req.authorization = none →
      (req.useridParam = none ∨ req.useridParam = some "") →
      generatePoemAuth verify allowed req =
        .reject 401 "Authentication required: Missing token or userid") := by
  refine ⟨?_, ?_, ?_, ?_⟩
  · intro uid htok
    unfold generatePoemAuth
    rw [himg, htok]
    rfl
  · intro h hA hb hfail
    unfold tokenUid
    rw [hA]
    simp only [hb, if_true]
    cases hv : verify (bearerToken h) with
    | ok uid email => exact absurd hv (hfail uid email)
    | expired => rfl
    | invalid => rfl
  · intro u htok hparam hne
    have hgate : generatePoemAuth verify allowed req =
        (if allowed.length > 0 && !(allowed.contains u) then
          .reject 403 "Access denied: User not on allowlist"
        else .proceed u false) := by
      unfold generatePoemAuth
      rw [himg, htok, hparam]
      simp [hne]
    rw [hgate]
    by_cases hmem : u ∈ allowed
    · have : allowed.contains u = true := (contains_eq_mem_strings _ _).mpr hmem
      simp [this, hmem]
    · have hcon : allowed.contains u = false := by
        rcases Bool.eq_false_or_eq_true (allowed.contains u) with h' | h'
        · exact absurd ((contains_eq_mem_strings _ _).mp h') hmem
        · exact h'
      by_cases hnil : allowed = []
      · subst hnil
        simp
      · have hlen : allowed.length > 0 := List.length_pos.mpr hnil
        simp [hcon, hlen, hmem, hnil]
  · intro htok hnone
    unfold generatePoemAuth
    rw [himg, htok]
    rcases hnone with h' | h' <;> rw [h'] <;> rfl

/-- C3 witness: a request with an invalid bearer token and an allowlisted
userid parameter succeeds via the fallback path. -/
theorem generatePoem_dual_auth_order_witness :
    generatePoemAuth vOK ["dev1"] ⟨true, some "Bearer bad", some "dev1"⟩ =
      .proceed "dev1" false :=
  ((generatePoem_dual_auth_order vOK ["dev1"]
      ⟨true, some "Bearer bad", some "dev1"⟩ rfl).2.2.1 "dev1"
      (by decide) rfl (by decide)).2 (Or.inr (by decide))

/-- C4: for every normalized index `i ≥ 0`, `getPoem` ranges over the active
ordering with offset `max(0, i-1)` and limit 2 (if `i = 0`) else 3, and maps
the returned rows positionally — `i = 0`: row 0 is `currentPoem@0`, row 1 is
`previousPoem@1`, `nextPoem` null; `i > 0`: row 0 is `nextPoem@i-1`, row 1 is
`currentPoem@i`, row 2 is `previousPoem@i+1`; an absent row yields null.
Equivalently, each slot is the element of the ordered sequence at its
absolute position. -/
theorem getPoem_window_mapping (ordered rows : List Poem)
    (rawIndex : Option Int) (i : Int)
    (hi : i = normalizeIndex rawIndex)
    (hrows : rows =
      (ordered.drop (max 0 (i - 1)).toNat).take (if i = 0 then 2 else 3)) :
    (i = 0 → getPoem ordered rawIndex =
      { currentPoem := (rows.get? 0).map (fun p => ⟨p, 0⟩)
        nextPoem := none
        previousPoem := (rows.get? 1).map (fun p => ⟨p, 1⟩) }) ∧
    (i ≠ 0 → getPoem ordered rawIndex =
      { nextPoem := (rows.get? 0).map (fun p => ⟨p, i - 1⟩)
        currentPoem := (rows.get? 1).map (fun p => ⟨p, i⟩)
        previousPoem := (rows.get? 2).map (fun p => ⟨p, i + 1⟩) }) ∧
    (getPoem ordered rawIndex).currentPoem =
      (ordered.get? i.toNat).map (fun p => ⟨p, i⟩) ∧
    (getPoem ordered rawIndex).previousPoem =
      (ordered.get? (i + 1).toNat).map (fun p => ⟨p, i + 1⟩) ∧
    (getPoem ordered rawIndex).nextPoem =
      (if i = 0 then none
       else (ordered.get? (i - 1).toNat).map (fun p => ⟨p, i - 1⟩)) := by
  have hnn : 0 ≤ i := hi ▸ normalizeIndex_nonneg rawIndex
  have hoff : (max 0 (i - 1)).toNat = (i - 1).toNat := by
    rcases le_total 0 (i - 1) with h' | h'
    · rw [max_eq_right h']
    · rw [max_eq_left h', Int.toNat_of_nonpos h']
      rfl
  have hmain : getPoem ordered rawIndex =
      (if rows.isEmpty then ⟨none, none, none⟩
       else if i = 0 then
         ⟨(rows[0]?).map (fun p => ⟨p, 0⟩), none,
          (rows[1]?).map (fun p => ⟨p, 1⟩)⟩
       else
         ⟨(rows[1]?).map (fun p => ⟨p, i⟩),
          (rows[0]?).map (fun p => ⟨p, i - 1⟩),
          (rows[2]?).map (fun p => ⟨p, i + 1⟩)⟩) := by
    simp only [getPoem, List.get?_eq_getElem?]
    rw [← hi, ← hrows]
  simp only [List.get?_eq_getElem?]
  by_cases hre : rows = []
  · have htake : (ordered.drop (max 0 (i - 1)).toNat).take
        (if i = 0 then 2 else 3) = [] := hrows.symm.trans hre
    have hlen : ordered.length ≤ (i - 1).toNat := by
      rcases List.take_eq_nil_iff.mp htake with h2 | h2
      · split at h2 <;> omega
      · rw [← hoff]
        exact List.drop_eq_nil_iff.mp h2
    have gc : ordered[i.toNat]? = none :=
      List.getElem?_eq_none (by omega)
    have gp : ordered[(i + 1).toNat]? = none :=
      List.getElem?_eq_none (by omega)
    have gn : ordered[(i - 1).toNat]? = none :=
      List.getElem?_eq_none (by omega)
    rw [hmain, hre]
    refine ⟨fun _ => by simp, fun _ => by simp, ?_, ?_, ?_⟩
    · simp [gc]
    · simp [gp]
    · by_cases h0 : i = 0
      · simp [h0]
      · have gn2 : ordered[i.toNat - 1]? = none :=
          List.getElem?_eq_none (by omega)
        simp [h0, gn, gn2]
  · have hne : rows.isEmpty = false := by
      simpa [List.isEmpty_iff] using hre
    rw [hmain, hne]
    simp only [Bool.false_eq_true, if_false]
    by_cases h0 : i = 0
    · subst h0
      have hr : rows = (ordered.drop 0).take 2 := by
        simpa using hrows
      have g0 : rows[0]? = ordered[0]? := by
        rw [hr, window_getElem? ordered 0 2 0 (by omega)]
      have g1 : rows[1]? = ordered[1]? := by
        rw [hr, window_getElem? ordered 0 2 1 (by omega)]
      refine ⟨fun _ => by simp, fun hc => absurd rfl hc, ?_, ?_, ?_⟩
      · simp only [if_pos rfl, g0]
        rfl
      · simp only [if_pos rfl, g1]
        rfl
      · simp
    · have h1 : 1 ≤ i := by omega
      have hr : rows = (ordered.drop (i - 1).toNat).take 3 := by
        rw [hrows, hoff, if_neg h0]
      have g0 : rows[0]? = ordered[(i - 1).toNat]? := by
        rw [hr, window_getElem? ordered _ 3 0 (by omega)]
        congr 1
      have g1 : rows[1]? = ordered[i.toNat]? := by
        rw [hr, window_getElem? ordered _ 3 1 (by omega)]
        congr 1
        omega
      have g2 : rows[2]? = ordered[(i + 1).toNat]? := by
        rw [hr, window_getElem? ordered _ 3 2 (by omega)]
        congr 1
        omega
      refine ⟨fun hc => absurd hc h0, fun _ => by rw [if_neg h0], ?_, ?_, ?_⟩
      · simp only [if_neg h0, g1]
      · simp only [if_neg h0, g2]
      · simp only [if_neg h0, g0]

/-- Sample poems (newest first under the active ordering). -/
def pA : Poem := ⟨"A", "o", false, 50⟩

def pB : Poem := ⟨"B", "o", false, 40⟩

def pC : Poem := ⟨"C", "o", false, 30⟩

def pD : Poem := ⟨"D", "o", false, 20⟩

def pE : Poem := ⟨"E", "o", false, 10⟩

/-- C4 witness: index 3 over five items [A,B,C,D,E] gives
`{next: C@2, current: D@3, previous: E@4}`. -/
theorem getPoem_window_mapping_witness :
    getPoem [pA, pB, pC, pD, pE] (some 3) =
      ⟨some ⟨pD, 3⟩, some ⟨pC, 2⟩, some ⟨pE, 4⟩⟩ :=
  ((getPoem_window_mapping [pA, pB, pC, pD, pE] [pC, pD, pE] (some 3) 3
      (by decide) (by decide)).2.1 (by decide)).trans (by decide)

/-- C8: when no items match the owner and filter at all (the base query
result is empty), `getPoem` and `getPublicPoem` respond successfully with all
three slots null for every index, rather than raising an error. -/
theorem navigator_empty_collection (rawIndex : Option Int) (u : String)
    (orderedOf : String → List Poem)
    (hu : u ≠ "") (hord : orderedOf u = []) :
    getPoem [] rawIndex = ⟨none, none, none⟩ ∧
    getPublicPoem (some u) orderedOf rawIndex = .ok ⟨none, none, none⟩ := by
  have h1 : getPoem [] rawIndex = ⟨none, none, none⟩ := by
    simp [getPoem]
  refine ⟨h1, ?_⟩
  simp only [getPublicPoem]
  rw [if_neg hu, hord, h1]

/-- C8 witness: concrete empty collections at index 5. -/
theorem navigator_empty_collection_witness :
    getPoem [] (some 5) = ⟨none, none, none⟩ ∧
    getPublicPoem (some "alice") (fun _ => []) (some 5) =
      .ok ⟨none, none, none⟩ :=
  navigator_empty_collection (some 5) "alice" (fun _ => []) (by decide) rfl

/-- C5: for `deletePoem` with an authenticated caller and an id: if no item
with that id exists, 404 and the datastore is unchanged; if the item exists
but its recorded owner differs from the caller uid, 403 and the datastore is
unchanged; only when the caller uid equals the owner is the item deleted and
success reported. -/
theorem deletePoem_owner_guard (db : List Poem) (uid id : String)
    (hid : id ≠ "") :
    ((∀ p ∈ db, p.id ≠ id) →
      deletePoem db uid (some id) = (.notFound "Poem not found", db)) ∧
    (∀ doc, db.find? (fun p => p.id == id) = some doc → doc.userId ≠ uid →
      deletePoem db uid (some id) =
        (.forbidden "Unauthorized to delete this poem", db)) ∧
    (∀ doc, db.find? (fun p => p.id == id) = some doc → doc.userId = uid →
      deletePoem db uid (some id) =
        (.success, db.filter (fun p => p.id ≠ id))) := by
  refine ⟨?_, ?_, ?_⟩
  · intro habs
    have hfind : db.find? (fun p => p.id == id) = none := by
      rw [List.find?_eq_none]
      intro p hp
      simpa using habs p hp
    simp only [deletePoem]
    rw [if_neg hid, hfind]
  · intro doc hfind hdiff
    simp only [deletePoem]
    rw [if_neg hid, hfind]
    simp [hdiff]
  · intro doc hfind hown
    simp only [deletePoem]
    rw [if_neg hid, hfind]
    simp [hown]

/-- C5 witness: a foreign-owned item is not deleted (403), and an owned item
is deleted with success. -/
theorem deletePoem_owner_guard_witness :
    deletePoem [pA, pB] "x" (some "A") =
      (.forbidden "Unauthorized to delete this poem", [pA, pB]) ∧
    deletePoem [pA, pB] "o" (some "A") = (.success, [pB]) :=
  ⟨(deletePoem_owner_guard [pA, pB] "x" "A" (by decide)).2.1 pA
      (by decide) (by decide),
   ((deletePoem_owner_guard [pA, pB] "o" "A" (by decide)).2.2 pA
      (by decide) (by decide)).trans (by decide)⟩

/-- C6: for `toggleFavorite` on an existing item owned by the caller: an
explicit boolean `status` writes exactly that boolean regardless of the prior
value; an absent `status` writes the negation of the prior value; the
response reports the written value, and the stored item carries it. -/
theorem toggleFavorite_semantics (db : List Poem) (uid id : String)
    (doc : Poem)
    (hid : id ≠ "")
    (hfind : db.find? (fun p => p.id == id) = some doc)
    (hown : doc.userId = uid) :
    (∀ b, toggleFavorite db uid (some id) (some (.jbool b)) =
      (.success b,
       db.map (fun p => if p.id == id then { p with isFavorite := b } else p))) ∧
    (toggleFavorite db uid (some id) none =
      (.success (!doc.isFavorite),
       db.map (fun p => if p.id == id then
         { p with isFavorite := !doc.isFavorite } else p))) ∧
    (∀ b p, p ∈ (toggleFavorite db uid (some id) (some (.jbool b))).2 →
      p.id = id → p.isFavorite = b) := by
  have hco : ∀ b : Bool,
      ((JVal.jbool b == JVal.jbool true) || (JVal.jbool b == JVal.jstr "true")) = b := by
    intro b
    cases b <;> rfl
  have hexp : ∀ b, toggleFavorite db uid (some id) (some (.jbool b)) =
      (.success b,
       db.map (fun p => if p.id == id then { p with isFavorite := b } else p)) := by
    intro b
    simp only [toggleFavorite]
    rw [if_neg hid, hfind]
    simp [hown, hco]
  refine ⟨hexp, ?_, ?_⟩
  · simp only [toggleFavorite]
    rw [if_neg hid, hfind]
    simp [hown]
  · intro b p hp hpid
    rw [hexp b] at hp
    rcases List.mem_map.mp hp with ⟨q, _, hq⟩
    by_cases hqid : q.id == id
    · rw [if_pos hqid] at hq
      rw [← hq]
    · rw [if_neg hqid] at hq
      rw [← hq] at hpid
      exact absurd (by simp [hpid]) hqid

/-- C6 witness: explicit `status: false` on an already-unfavorited owned item
writes false; absent status flips it to true; the updated item carries the
written value. -/
theorem toggleFavorite_semantics_witness :
    toggleFavorite [pA, pB] "o" (some "A") (some (.jbool false)) =
      (.success false, [pA, pB]) ∧
    toggleFavorite [pA, pB] "o" (some "A") none =
      (.success true, [⟨"A", "o", true, 50⟩, pB]) :=
  ⟨((toggleFavorite_semantics [pA, pB] "o" "A" pA (by decide) (by decide)
      (by decide)).1 false).trans (by decide),
   ((toggleFavorite_semantics [pA, pB] "o" "A" pA (by decide) (by decide)
      (by decide)).2.1).trans (by decide)⟩

/-- C9: the `getSettings` response never contains the stored `geminiApiKey`:
two allowlist documents that differ only in `geminiApiKey` produce responses
with identical settings, differing at most in the `hasGeminiApiKey` flag,
which is true exactly when the stored key is a present, non-empty string. -/
theorem getSettings_key_confidential (d1 d2 : AllowDoc)
    (hsame : { d1 with geminiApiKey := none } =
             { d2 with geminiApiKey := none }) :
    ∃ s b1 b2, getSettings (some d1) = .ok ⟨s, b1⟩ ∧
      getSettings (some d2) = .ok ⟨s, b2⟩ ∧
      (b1 = true ↔ ∃ k, d1.geminiApiKey = some k ∧ k ≠ "") ∧
      (b2 = true ↔ ∃ k, d2.geminiApiKey = some k ∧ k ≠ "") := by
  have hsafe : safeOf d1 = safeOf d2 := by
    have h1 := congrArg AllowDoc.uid hsame
    have h2 := congrArg AllowDoc.timezone hsame
    have h3 := congrArg AllowDoc.themeMode hsame
    have h4 := congrArg AllowDoc.penName hsame
    have h5 := congrArg AllowDoc.webDisplayPoem hsame
    have h6 := congrArg AllowDoc.addedBy hsame
    simp only [safeOf]
    simp only at h1 h2 h3 h4 h5 h6
    rw [h1, h2, h3, h4, h5, h6]
  have hflag : ∀ d : AllowDoc,
      ((match d.geminiApiKey with
        | some k => (k ≠ "" : Bool)
        | none => false) = true ↔ ∃ k, d.geminiApiKey = some k ∧ k ≠ "") := by
    intro d
    cases hk : d.geminiApiKey with
    | none => simp
    | some k =>
      by_cases hke : k = "" <;> simp [hke]
  refine ⟨safeOf d1,
    (match d1.geminiApiKey with | some k => (k ≠ "" : Bool) | none => false),
    (match d2.geminiApiKey with | some k => (k ≠ "" : Bool) | none => false),
    rfl, ?_, hflag d1, hflag d2⟩
  simp only [getSettings, hsafe]

/-- C9 witness: two concrete documents differing only in the stored key. -/
theorem getSettings_key_confidential_witness :
    ∃ s b1 b2,
      getSettings (some ⟨some "u", some "sk-123", some "UTC", none, none,
        none, none⟩) = .ok ⟨s, b1⟩ ∧
      getSettings (some ⟨some "u", none, some "UTC", none, none,
        none, none⟩) = .ok ⟨s, b2⟩ ∧
      (b1 = true ↔ ∃ k, (some "sk-123" : Option String) = some k ∧ k ≠ "") ∧
      (b2 = true ↔ ∃ k, (none : Option String) = some k ∧ k ≠ "") :=
  getSettings_key_confidential
    ⟨some "u", some "sk-123", some "UTC", none, none, none, none⟩
    ⟨some "u", none, some "UTC", none, none, none, none⟩ rfl

/-- Membership in the snapshot fold that builds the allowlist. -/
theorem mem_buildAllowlist_fold (snapshot : List AllowDoc)
    (acc : List String) (u : String) :
    u ∈ snapshot.foldl (fun acc doc =>
      match doc.uid with
      | some v => if v ≠ "" then acc ++ [v] else acc
      | none => acc) acc ↔
    u ∈ acc ∨ ∃ d ∈ snapshot, d.uid = some u ∧ u ≠ "" := by
  induction snapshot generalizing acc with
  | nil => simp
  | cons d ds ih =>
    rw [List.foldl_cons, ih]
    cases hd : d.uid with
    | none => simp [hd]
    | some v =>
      by_cases hv : v = ""
      · subst hv
        simp only [hd, ne_eq, not_true_eq_false, if_false]
        constructor
        · rintro (h' | h')
          · exact Or.inl h'
          · exact Or.inr (by
              rcases h' with ⟨d', hd', hu, hne⟩
              exact ⟨d', List.mem_cons_of_mem _ hd', hu, hne⟩)
        · rintro (h' | ⟨d', hd', hu, hne⟩)
          · exact Or.inl h'
          · rcases List.mem_cons.mp hd' with h'' | h''
            · subst h''
              rw [hd] at hu
              cases hu
              exact absurd rfl hne
            · exact Or.inr ⟨d', h'', hu, hne⟩
      · simp only [hd, ne_eq, hv, not_false_eq_true, if_true,
          List.mem_append, List.mem_singleton]
        constructor
        · rintro ((h' | h') | h')
          · exact Or.inl h'
          · subst h'
            exact Or.inr ⟨d, List.mem_cons_self _ _, hd, hv⟩
          · rcases h' with ⟨d', hd', hu, hne⟩
            exact Or.inr ⟨d', List.mem_cons_of_mem _ hd', hu, hne⟩
        · rintro (h' | ⟨d', hd', hu, hne⟩)
          · exact Or.inl (Or.inl h')
          · rcases List.mem_cons.mp hd' with h'' | h''
            · subst h''
              rw [hd] at hu
              cases hu
              exact Or.inl (Or.inr rfl)
            · exact Or.inr ⟨d', h'', hu, hne⟩

/-- C10: processing a delivered snapshot replaces the cache wholesale:
whatever the previous cache held, a subject is in the updated cache exactly
when some snapshot document carries it as a present, non-empty (truthy)
`uid`. -/
theorem updateCache_membership (old : List String)
    (snapshot : List AllowDoc) (u : String) :
    u ∈ updateCache old snapshot ↔
      ∃ d ∈ snapshot, d.uid = some u ∧ u ≠ "" := by
  unfold updateCache buildAllowlist
  rw [mem_buildAllowlist_fold]
  simp

/-- C10 witness: a stale member vanishes after a snapshot without it, and
documents lacking a uid or carrying an empty uid contribute nothing. -/
theorem updateCache_membership_witness :
    ("stale" ∈ updateCache ["stale"]
        [⟨some "a", none, none, none, none, none, none⟩,
         ⟨none, none, none, none, none, none, none⟩,
         ⟨some "", none, none, none, none, none, none⟩] ↔
      ∃ d ∈ [(⟨some "a", none, none, none, none, none, none⟩ : AllowDoc),
         ⟨none, none, none, none, none, none, none⟩,
         ⟨some "", none, none, none, none, none, none⟩],
        d.uid = some "stale" ∧ "stale" ≠ "") :=
  updateCache_membership ["stale"]
    [⟨some "a", none, none, none, none, none, none⟩,
     ⟨none, none, none, none, none, none, none⟩,
     ⟨some "", none, none, none, none, none, none⟩] "stale"
